import Mathlib

/-!
Shallow embedding of `src/wpcli.py`, an Ansible module driving the WP-CLI
binary.  Python dictionaries are embedded as association lists where an
insertion prepends its pair and a lookup returns the first (hence most
recent) binding, which matches Python's overwrite-on-assignment semantics
for the keys this module uses.  The Ansible runtime functions
(`fail_json`, `exit_json`, `run_command`) are not part of the repository;
their observable effect on the module's reported result is captured by the
`ModuleOutcome` type, and the subprocess is a parameter of `main`.
-/

/-- Whitespace test matching Python's regex class `\s` on ASCII text:
space, tab, newline, carriage return, vertical tab and form feed. -/
def isWS (c : Char) : Bool :=
  c = ' ' || c = '\t' || c = '\n' || c = '\r' || c = '\u000B' || c = '\u000C'

/-- Embedding of `re.sub("\s+", " ", string)`: every maximal run of
whitespace characters is replaced by a single space.  The boolean argument
records whether the previous character belonged to a whitespace run. -/
def collapseWS : Bool → List Char → List Char
  | _, [] => []
  | prevWS, c :: rest =>
    if isWS c then
      if prevWS then collapseWS true rest
      else ' ' :: collapseWS true rest
    else
      c :: collapseWS false rest

/-- Leading-whitespace removal, one half of Python's `str.strip()`. -/
def stripLeftWS (l : List Char) : List Char := l.dropWhile isWS

/-- Trailing-whitespace removal, the other half of Python's `str.strip()`. -/
def stripRightWS (l : List Char) : List Char := (l.reverse.dropWhile isWS).reverse

/-- Embedding of Python's `str.strip()` restricted to the output of the
whitespace collapse: whitespace is removed from both ends. -/
def stripWS (l : List Char) : List Char := stripRightWS (stripLeftWS l)

/-- Embedding of `parse_out` (src/wpcli.py line 204):
`re.sub("\s+", " ", string).strip()`. -/
def parse_out (string : String) : String :=
  (stripWS (collapseWS false string.toList)).asString

/-- Character-list prefix test, written out so that all searches in this
development are executable and self-contained. -/
def leadMatch : List Char → List Char → Bool
  | [], _ => true
  | _ :: _, [] => false
  | a :: as, b :: bs => a = b && leadMatch as bs

/-- Substring occurrence test on character lists. -/
def findSub (pat : List Char) : List Char → Bool
  | [] => leadMatch pat []
  | c :: rest => leadMatch pat (c :: rest) || findSub pat rest

/-- Embedding of `re.search(pattern, text)` for the patterns this module
uses; all four patterns are literal strings without regex metacharacters,
so `re.search` is exactly a substring test. -/
def re_search (pat s : String) : Bool := findSub pat.toList s.toList

/-- Embedding of the Python class `Option` (renamed: `Option` is taken by
the Lean prelude).  One recognized CLI flag of a subcommand. -/
structure WpOption where
  name : String
  accepts_values : Bool
deriving DecidableEq, Repr

/-- Embedding of the Python class `SubCommand`: an emitted name and a
dictionary of recognized options keyed by option name. -/
structure SubCommand where
  name : String
  options : List (String × WpOption)
deriving DecidableEq, Repr

/-- Embedding of the Python class `Command`: a name and a dictionary of
subcommands keyed by their lookup name. -/
structure Command where
  name : String
  subCommands : List (String × SubCommand)
deriving DecidableEq, Repr

/-- Dictionary lookup: first binding wins, so that prepending a binding
models Python's overwriting assignment `d[k] = v`. -/
def dictGet {α : Type} : List (String × α) → String → Option α
  | [], _ => none
  | (k, v) :: rest, key => if k = key then some v else dictGet rest key

/-- Embedding of `SubCommand.__init__`: the stored name is the alias when
one is given (`if alias: self.name = alias`), otherwise the name. -/
def SubCommand.init (name : String) (als : Option String) : SubCommand :=
  ⟨als.getD name, []⟩

/-- Embedding of `SubCommand.add_option`:
`self.options[name] = Option(name, accepts_values)`. -/
def SubCommand.add_option (sc : SubCommand) (name : String)
    (accepts_values : Bool) : SubCommand :=
  ⟨sc.name, (name, ⟨name, accepts_values⟩) :: sc.options⟩

/-- Embedding of `Command.__init__`. -/
def Command.init (name : String) : Command := ⟨name, []⟩

/-- Embedding of `Command.add_sub_command` followed by the chained
`add_option` calls that mutate the returned subcommand: the fully built
subcommand is stored under its lookup key,
`self.subCommands[name] = sub_command`. -/
def Command.with_sub (c : Command) (key : String) (sc : SubCommand) : Command :=
  ⟨c.name, (key, sc) :: c.subCommands⟩

/-- Embedding of the module-level registry construction for `core`
(src/wpcli.py lines 164-187), in source order; in particular `update` is
registered twice, the second time with no options, and `checkUpdate` is
registered with the alias `check-update`. -/
def core : Command :=
  Command.init "core"
    |>.with_sub "install" (SubCommand.init "install" none
        |>.add_option "url" true
        |>.add_option "title" true
        |>.add_option "admin_user" true
        |>.add_option "admin_password" true
        |>.add_option "admin_email" true
        |>.add_option "skip-email" false)
    |>.with_sub "update" (SubCommand.init "update" none
        |>.add_option "minor" false
        |>.add_option "version" true)
    |>.with_sub "download" (SubCommand.init "download" none)
    |>.with_sub "config" (SubCommand.init "config" none
        |>.add_option "dbname" true
        |>.add_option "dbuser" true
        |>.add_option "dbpass" true)
    |>.with_sub "update" (SubCommand.init "update" none)
    |>.with_sub "update-db" (SubCommand.init "update-db" none)
    |>.with_sub "checkUpdate" (SubCommand.init "checkUpdate" (some "check-update"))

/-- Embedding of the `theme` command construction (lines 191-193). -/
def theme : Command :=
  Command.init "theme"
    |>.with_sub "update" (SubCommand.init "update" none |>.add_option "all" false)

/-- Embedding of the `plugin` command construction (lines 197-198). -/
def plugin : Command :=
  Command.init "plugin"
    |>.with_sub "update" (SubCommand.init "update" none |>.add_option "all" false)

/-- Embedding of `commands = dict(core=core, theme=theme, plugin=plugin)`. -/
def commands : List (String × Command) := [("core", core), ("theme", theme), ("plugin", plugin)]

/-- Embedding of `get_command`: membership test on the dictionary, with
`module.fail_json(msg="Command not available")` as the error case. -/
def get_command (command : String) (available_commands : List (String × Command)) :
    Except String Command :=
  match dictGet available_commands command with
  | some c => Except.ok c
  | none => Except.error "Command not available"

/-- Embedding of `get_sub_command`. -/
def get_sub_command (command : Command) (sub_command : String) :
    Except String SubCommand :=
  match dictGet command.subCommands sub_command with
  | some sc => Except.ok sc
  | none => Except.error "SubCommand not available in Command"

/-- Embedding of `get_sub_command_option`. -/
def get_sub_command_option (sub_command : SubCommand) (opt : String) :
    Except String WpOption :=
  match dictGet sub_command.options opt with
  | some o => Except.ok o
  | none => Except.error "Option not available in SubCommand"

/-- Embedding of `get_formatted_options` (lines 250-286): iterate over the
supplied option mapping, resolve each name against the subcommand (the
first failure aborts via `fail_json`), emit `--name=value` when the option
accepts values and `--name` otherwise.  The supplied mapping is an ordered
list of pairs; an absent `arguments` parameter is the empty list. -/
def get_formatted_options (sub_command : SubCommand) :
    List (String × String) → Except String (List String)
  | [] => Except.ok []
  | (opt, value) :: rest =>
    match get_sub_command_option sub_command opt with
    | Except.error e => Except.error e
    | Except.ok option_instance =>
      match get_formatted_options sub_command rest with
      | Except.error e => Except.error e
      | Except.ok tail =>
        if option_instance.accepts_values then
          Except.ok (("--" ++ option_instance.name ++ "=" ++ value) :: tail)
        else
          Except.ok (("--" ++ option_instance.name) :: tail)

/-- Embedding of the command-line string built by `wp_better_command`
(line 302): `"%s %s %s %s" % (wp_path, command.name, subcommand.name,
" ".join(options))`. -/
def wp_better_command_line (wp_path : String) (command : Command)
    (subcommand : SubCommand) (options : List String) : String :=
  wp_path ++ " " ++ command.name ++ " " ++ subcommand.name ++ " " ++
    String.intercalate " " options

/-- Captured subprocess outcome of `module.run_command`: exit code, raw
stdout and raw stderr. -/
structure RunResult where
  rc : Int
  out : String
  err : String
deriving DecidableEq, Repr

/-- Observable report of one module run.  `validationError` is a
`fail_json` call made before any subprocess is started (only `msg` is
supplied); `failed` is the `fail_json` call made on a non-zero exit code.
Modelled from the spec: the host runtime's `fail_json` (not in src/)
reports the run as failed and terminates the process with a non-zero
status, while `exit_json` (`ok`) reports success. -/
inductive ModuleOutcome where
  | validationError (msg : String)
  | failed (msg : String) (stdout : String) (changed : Bool)
  | ok (msg : String) (stdout : String) (changed : Bool)
deriving DecidableEq, Repr

/-- Embedding of the validation and formatting stage of `main`
(lines 321-335): resolve the command, then the subcommand, then format the
options, then unconditionally append `--path=<working_dir>`. -/
def parse_invocation (command subcommand : String)
    (arguments : List (String × String)) (working_dir : String) :
    Except String (Command × SubCommand × List String) :=
  match get_command command commands with
  | Except.error e => Except.error e
  | Except.ok parsed_command =>
    match get_sub_command parsed_command subcommand with
    | Except.error e => Except.error e
    | Except.ok parsed_sub_command =>
      match get_formatted_options parsed_sub_command arguments with
      | Except.error e => Except.error e
      | Except.ok parsed_options =>
        Except.ok (parsed_command, parsed_sub_command,
          parsed_options ++ ["--path=" ++ working_dir])

/-- Embedding of the changed-detection checks of `main` (lines 339-358):
four independent `if re.search(...)` statements run in sequence over the
normalized output, each assignment overwriting the current value. -/
def classify_changed (output : String) : Bool :=
  let changed := false
  let changed := if re_search "Success" output then true else changed
  let changed := if re_search "update_type" output then true else changed
  let changed := if re_search "0/0" output then false else changed
  let changed :=
    if re_search "WordPress is at the latest version" output then false
    else changed
  changed

/-- Embedding of `main` (lines 306-360).  The subprocess result is a
parameter; the reported outcome is a `ModuleOutcome`.  On a non-zero exit
code the module calls `fail_json(msg=parse_out(err), stdout=err,
changed=False)`; on exit code zero it calls
`exit_json(msg=parse_out(out+err), stdout=out+err, changed=...)`.  The
source names this function `main`; Lean reserves that name for
executables, hence the prefix. -/
def wpcli_main (command subcommand : String) (arguments : List (String × String))
    (working_dir : String) (run : RunResult) : ModuleOutcome :=
  match parse_invocation command subcommand arguments working_dir with
  | Except.error msg => ModuleOutcome.validationError msg
  | Except.ok _ =>
    if run.rc ≠ 0 then
      ModuleOutcome.failed (parse_out run.err) run.err false
    else
      let output := parse_out (run.out ++ run.err)
      ModuleOutcome.ok output (run.out ++ run.err) (classify_changed output)

/-- Property of a character list: every whitespace character is a plain
space.  Outputs of the whitespace collapse satisfy it. -/
def allWSSpace (l : List Char) : Prop := ∀ c ∈ l, isWS c = true → c = ' '

/-- Property of a character list: no two adjacent characters are both
whitespace. -/
def noAdjWS (l : List Char) : Prop :=
  List.Chain' (fun a b => ¬(isWS a = true ∧ isWS b = true)) l

/-- Property of a character list: the first character, when there is one,
is not whitespace. -/
def headNotWS (l : List Char) : Prop := ∀ c, l.head? = some c → isWS c = false

/-- Property of a pattern: it contains no whitespace characters.  All of
the module's changed-detection patterns except the WordPress sentence
satisfy it. -/
def nonWS (l : List Char) : Prop := ∀ c ∈ l, isWS c = false

/-- Unfolding equation of the collapse: whitespace inside a run is
dropped. -/
theorem collapseWS_cons_ws_t {a : Char} (rest : List Char) (ha : isWS a = true) :
    collapseWS true (a :: rest) = collapseWS true rest := by
  simp [collapseWS, ha]

/-- Unfolding equation of the collapse: whitespace opening a run becomes
one space. -/
theorem collapseWS_cons_ws_f {a : Char} (rest : List Char) (ha : isWS a = true) :
    collapseWS false (a :: rest) = ' ' :: collapseWS true rest := by
  simp [collapseWS, ha]

/-- Unfolding equation of the collapse: a non-whitespace character is
copied. -/
theorem collapseWS_cons_nws {a : Char} (b : Bool) (rest : List Char)
    (ha : isWS a = false) : collapseWS b (a :: rest) = a :: collapseWS false rest := by
  simp [collapseWS, ha]

/-- Every whitespace character emitted by the collapse is a space. -/
theorem collapseWS_allWSSpace (b : Bool) (l : List Char) :
    allWSSpace (collapseWS b l) := by
  induction l generalizing b with
  | nil => intro c hc _; simp [collapseWS] at hc
  | cons a rest ih =>
    intro c hc hWS
    rcases Bool.eq_false_or_eq_true (isWS a) with ha | ha
    · cases b with
      | true =>
        rw [collapseWS_cons_ws_t rest ha] at hc
        exact ih true c hc hWS
      | false =>
        rw [collapseWS_cons_ws_f rest ha] at hc
        rcases List.mem_cons.mp hc with hc | hc
        · exact hc
        · exact ih true c hc hWS
    · rw [collapseWS_cons_nws b rest ha] at hc
      rcases List.mem_cons.mp hc with hc | hc
      · subst hc; rw [ha] at hWS; cases hWS
      · exact ih false c hc hWS

/-- The collapse in the state "previous character was whitespace" never
begins its output with a whitespace character. -/
theorem collapseWS_headNotWS_true (l : List Char) :
    headNotWS (collapseWS true l) := by
  induction l with
  | nil => intro c h; simp [collapseWS] at h
  | cons a rest ih =>
    rcases Bool.eq_false_or_eq_true (isWS a) with ha | ha
    · rw [collapseWS_cons_ws_t rest ha]
      exact ih
    · rw [collapseWS_cons_nws true rest ha]
      intro c h
      rw [List.head?_cons, Option.some.injEq] at h
      subst h
      exact ha

/-- The collapse never emits two adjacent whitespace characters. -/
theorem collapseWS_noAdjWS (b : Bool) (l : List Char) :
    noAdjWS (collapseWS b l) := by
  induction l generalizing b with
  | nil => simp [collapseWS, noAdjWS]
  | cons a rest ih =>
    rcases Bool.eq_false_or_eq_true (isWS a) with ha | ha
    · cases b with
      | true =>
        rw [collapseWS_cons_ws_t rest ha]
        exact ih true
      | false =>
        rw [collapseWS_cons_ws_f rest ha, noAdjWS, List.chain'_cons']
        refine ⟨?_, ih true⟩
        intro y hy
        have hyw := collapseWS_headNotWS_true rest y hy
        simp [hyw]
    · rw [collapseWS_cons_nws b rest ha, noAdjWS, List.chain'_cons']
      refine ⟨?_, ih false⟩
      intro y _
      simp [ha]

/-- On an already collapsed list the collapse is the identity; in the
"previous was whitespace" state this additionally needs the list not to
begin with whitespace. -/
theorem collapseWS_fix (l : List Char) (h1 : allWSSpace l) (h2 : noAdjWS l) :
    collapseWS false l = l ∧ (headNotWS l → collapseWS true l = l) := by
  induction l with
  | nil => exact ⟨rfl, fun _ => rfl⟩
  | cons a rest ih =>
    rw [noAdjWS, List.chain'_cons'] at h2
    have h1r : allWSSpace rest := fun c hc => h1 c (List.mem_cons_of_mem a hc)
    have ihr := ih h1r h2.2
    rcases Bool.eq_false_or_eq_true (isWS a) with ha | ha
    · have haSp : a = ' ' := h1 a (List.mem_cons_self a rest) ha
      have hrest : headNotWS rest := by
        intro c hc
        have hnc := h2.1 c hc
        by_contra hcw
        exact hnc ⟨ha, by simpa using hcw⟩
      refine ⟨?_, fun hh => ?_⟩
      · rw [collapseWS_cons_ws_f rest ha, ihr.2 hrest, haSp]
      · have hha := hh a rfl
        rw [ha] at hha
        cases hha
    · refine ⟨?_, fun _ => ?_⟩
      · rw [collapseWS_cons_nws false rest ha, ihr.1]
      · rw [collapseWS_cons_nws true rest ha, ihr.1]

/-- Dropping leading whitespace leaves a list that does not begin with
whitespace. -/
theorem headNotWS_dropWhile (l : List Char) : headNotWS (l.dropWhile isWS) := by
  induction l with
  | nil => intro c h; simp [List.dropWhile] at h
  | cons a rest ih =>
    rcases Bool.eq_false_or_eq_true (isWS a) with ha | ha
    · intro c h
      rw [List.dropWhile_cons, ha] at h
      simp only [if_true] at h
      exact ih c h
    · intro c h
      rw [List.dropWhile_cons, ha] at h
      simp only [Bool.false_eq_true, if_false, List.head?_cons,
        Option.some.injEq] at h
      subst h
      exact ha

/-- Dropping leading whitespace from a list that has none is the
identity. -/
theorem dropWhile_headNotWS_id (l : List Char) (h : headNotWS l) :
    l.dropWhile isWS = l := by
  cases l with
  | nil => rfl
  | cons a rest =>
    have ha := h a rfl
    rw [List.dropWhile_cons, ha]
    simp

/-- A prefix of a list that does not begin with whitespace does not begin
with whitespace either. -/
theorem headNotWS_of_pre {l m : List Char} (h : l <+: m)
    (hm : headNotWS m) : headNotWS l := by
  obtain ⟨t, ht⟩ := h
  intro c hc
  apply hm
  rw [← ht]
  cases l with
  | nil => simp at hc
  | cons a rest => simpa using hc

/-- The adjacency property restricts to prefixes. -/
theorem noAdjWS_of_pre {l m : List Char} (h : l <+: m)
    (hm : noAdjWS m) : noAdjWS l := by
  obtain ⟨t, ht⟩ := h
  rw [← ht, noAdjWS, List.chain'_append] at hm
  exact hm.1

/-- The adjacency property restricts to suffixes. -/
theorem noAdjWS_of_suffix {l m : List Char} (h : l <:+ m)
    (hm : noAdjWS m) : noAdjWS l := by
  obtain ⟨t, ht⟩ := h
  rw [← ht, noAdjWS, List.chain'_append] at hm
  exact hm.2.1

/-- Left stripping produces a suffix. -/
theorem stripLeftWS_suffix (l : List Char) : stripLeftWS l <:+ l :=
  List.dropWhile_suffix isWS

/-- Right stripping produces a prefix. -/
theorem stripRightWS_pre (l : List Char) : stripRightWS l <+: l := by
  have h : l.reverse.dropWhile isWS <:+ l.reverse := List.dropWhile_suffix isWS
  have h2 := h.reverse
  rwa [List.reverse_reverse] at h2

/-- Left stripping leaves no leading whitespace. -/
theorem headNotWS_stripLeftWS (l : List Char) : headNotWS (stripLeftWS l) :=
  headNotWS_dropWhile l

/-- Right stripping leaves no trailing whitespace, phrased on the
reversed list. -/
theorem headNotWS_reverse_stripRightWS (l : List Char) :
    headNotWS (stripRightWS l).reverse := by
  rw [stripRightWS, List.reverse_reverse]
  exact headNotWS_dropWhile l.reverse

/-- Right stripping a list with no trailing whitespace is the identity. -/
theorem stripRightWS_id (l : List Char) (h : headNotWS l.reverse) :
    stripRightWS l = l := by
  rw [stripRightWS, dropWhile_headNotWS_id _ h, List.reverse_reverse]

/-- The full strip produces an infix. -/
theorem stripWS_infix_self (l : List Char) : stripWS l <:+: l :=
  ((stripRightWS_pre (stripLeftWS l)).isInfix).trans
    ((stripLeftWS_suffix l).isInfix)

/-- C10: the output-normalization function is idempotent: for every
string `s`, `parse_out (parse_out s) = parse_out s`. -/
theorem C10_parse_out_idempotent (s : String) :
    parse_out (parse_out s) = parse_out s := by
  unfold parse_out
  rw [List.toList_asString]
  set t := stripWS (collapseWS false s.toList) with ht
  have hA : allWSSpace (collapseWS false s.toList) := collapseWS_allWSSpace false _
  have hN : noAdjWS (collapseWS false s.toList) := collapseWS_noAdjWS false _
  have hsl := stripLeftWS_suffix (collapseWS false s.toList)
  have hsr := stripRightWS_pre (stripLeftWS (collapseWS false s.toList))
  have hAt : allWSSpace t := fun c hc =>
    hA c (hsl.subset (hsr.subset hc))
  have hNt : noAdjWS t := noAdjWS_of_pre hsr (noAdjWS_of_suffix hsl hN)
  have hHt : headNotWS t :=
    headNotWS_of_pre hsr (headNotWS_stripLeftWS (collapseWS false s.toList))
  have hRt : headNotWS t.reverse :=
    headNotWS_reverse_stripRightWS (stripLeftWS (collapseWS false s.toList))
  rw [(collapseWS_fix t hAt hNt).1]
  rw [show stripWS t = t from ?_]
  rw [stripWS, stripLeftWS, dropWhile_headNotWS_id t hHt, stripRightWS_id t hRt]

/-- The executable prefix test agrees with list prefixes. -/
theorem leadMatch_iff (p : List Char) : ∀ l, leadMatch p l = true ↔ p <+: l := by
  induction p with
  | nil => intro l; simp [leadMatch]
  | cons a as ih =>
    intro l
    cases l with
    | nil => simp [leadMatch]
    | cons b bs =>
      simp [leadMatch, List.cons_prefix_cons, ih bs, Bool.and_eq_true,
        decide_eq_true_eq]

/-- The executable substring test agrees with list infixes. -/
theorem findSub_iff (p : List Char) : ∀ l, findSub p l = true ↔ p <:+: l := by
  intro l
  induction l with
  | nil =>
    rw [show findSub p [] = leadMatch p [] from rfl, leadMatch_iff]
    simp
  | cons c rest ih =>
    rw [show findSub p (c :: rest) = (leadMatch p (c :: rest) || findSub p rest)
      from rfl]
    simp [Bool.or_eq_true, leadMatch_iff, ih, List.infix_cons_iff]

/-- The embedded regex search agrees with the substring relation on the
underlying character lists. -/
theorem re_search_iff (pat s : String) :
    re_search pat s = true ↔ pat.toList <:+: s.toList := by
  rw [re_search, findSub_iff]

/-- A whitespace-free prefix survives the whitespace collapse. -/
theorem collapse_prefix_mono : ∀ (pat : List Char), nonWS pat →
    ∀ l, pat <+: l → pat <+: collapseWS false l := by
  intro pat
  induction pat with
  | nil => intro _ l _; exact List.nil_prefix
  | cons p ps ih =>
    intro hnw l hp
    cases l with
    | nil => simp at hp
    | cons b bs =>
      obtain ⟨hb, htl⟩ := List.cons_prefix_cons.mp hp
      subst hb
      have hpw : isWS p = false := hnw p (List.mem_cons_self p ps)
      rw [collapseWS_cons_nws false bs hpw]
      exact List.cons_prefix_cons.mpr
        ⟨rfl, ih (fun c hc => hnw c (List.mem_cons_of_mem p hc)) bs htl⟩

/-- A whitespace-free substring survives the whitespace collapse. -/
theorem collapse_infix_mono {pat : List Char} (hnw : nonWS pat) :
    ∀ l (b : Bool), pat <:+: l → pat <:+: collapseWS b l := by
  intro l
  induction l with
  | nil =>
    intro b h
    rw [List.infix_nil.mp h]
    exact List.nil_infix
  | cons c rest ih =>
    intro b h
    rcases List.infix_cons_iff.mp h with hpre | hinf
    · cases pat with
      | nil => exact List.nil_infix
      | cons p ps =>
        obtain ⟨hb, htl⟩ := List.cons_prefix_cons.mp hpre
        subst hb
        have hpw : isWS p = false := hnw p (List.mem_cons_self p ps)
        rw [collapseWS_cons_nws b rest hpw]
        exact (List.cons_prefix_cons.mpr
          ⟨rfl, collapse_prefix_mono ps
            (fun c hc => hnw c (List.mem_cons_of_mem p hc)) rest htl⟩).isInfix
    · rcases Bool.eq_false_or_eq_true (isWS c) with hc | hc
      · cases b with
        | true => rw [collapseWS_cons_ws_t rest hc]; exact ih true hinf
        | false =>
          rw [collapseWS_cons_ws_f rest hc]
          exact List.infix_cons (ih true hinf)
      · rw [collapseWS_cons_nws b rest hc]
        exact List.infix_cons (ih false hinf)

/-- A whitespace-free substring survives dropping leading whitespace. -/
theorem dropWhile_infix_mono {pat : List Char} (hnw : nonWS pat) :
    ∀ l, pat <:+: l → pat <:+: l.dropWhile isWS := by
  intro l
  induction l with
  | nil => intro h; simpa using h
  | cons c rest ih =>
    intro h
    rcases List.infix_cons_iff.mp h with hpre | hinf
    · cases pat with
      | nil => exact List.nil_infix
      | cons p ps =>
        have hb : p = c := (List.cons_prefix_cons.mp hpre).1
        have hpw : isWS c = false := hb ▸ hnw p (List.mem_cons_self p ps)
        rw [List.dropWhile_cons, hpw]
        simpa using hpre.isInfix
    · rcases Bool.eq_false_or_eq_true (isWS c) with hc | hc
      · rw [List.dropWhile_cons, hc]
        simpa using ih hinf
      · rw [List.dropWhile_cons, hc]
        simpa using List.infix_cons hinf

/-- A whitespace-free substring survives the full strip. -/
theorem stripWS_infix_mono {pat : List Char} (hnw : nonWS pat) {l : List Char}
    (h : pat <:+: l) : pat <:+: stripWS l := by
  have h1 : pat <:+: stripLeftWS l := dropWhile_infix_mono hnw l h
  have hnwr : nonWS pat.reverse := fun c hc => hnw c (List.mem_reverse.mp hc)
  have h2 : pat.reverse <:+: (stripLeftWS l).reverse := h1.reverse
  have h3 := dropWhile_infix_mono hnwr (stripLeftWS l).reverse h2
  have h4 := h3.reverse
  rw [List.reverse_reverse] at h4
  exact h4

/-- A nonempty whitespace-free pattern occurring in the raw text also
occurs in the normalized text produced by `parse_out`. -/
theorem parse_out_infix_mono {pat : List Char} (hnw : nonWS pat) {s : String}
    (h : pat <:+: s.toList) : pat <:+: (parse_out s).toList := by
  rw [parse_out, List.toList_asString]
  exact stripWS_infix_mono hnw (collapse_infix_mono hnw s.toList false h)

/-- A whitespace-free prefix of the collapse output was already a prefix
of the input. -/
theorem collapse_prefix_refl {pat : List Char} (hnw : nonWS pat) :
    ∀ l, pat <+: collapseWS false l → pat <+: l := by
  intro l
  induction l generalizing pat with
  | nil =>
    intro h
    rw [show collapseWS false [] = [] from rfl] at h
    exact h
  | cons c rest ih =>
    intro h
    rcases Bool.eq_false_or_eq_true (isWS c) with hc | hc
    · rw [collapseWS_cons_ws_f rest hc] at h
      cases pat with
      | nil => exact List.nil_prefix
      | cons p ps =>
        have hb : p = ' ' := (List.cons_prefix_cons.mp h).1
        have hpw : isWS p = false := hnw p (List.mem_cons_self p ps)
        rw [hb] at hpw
        cases hpw
    · rw [collapseWS_cons_nws false rest hc] at h
      cases pat with
      | nil => exact List.nil_prefix
      | cons p ps =>
        obtain ⟨hb, htl⟩ := List.cons_prefix_cons.mp h
        subst hb
        exact List.cons_prefix_cons.mpr
          ⟨rfl, ih (fun c hc => hnw c (List.mem_cons_of_mem p hc)) htl⟩

/-- A nonempty whitespace-free substring of the collapse output was
already a substring of the input. -/
theorem collapse_infix_refl {pat : List Char} (hnw : nonWS pat)
    (hne : pat ≠ []) : ∀ l (b : Bool), pat <:+: collapseWS b l → pat <:+: l := by
  intro l
  induction l with
  | nil =>
    intro b h
    cases b <;> exact absurd (List.infix_nil.mp h) hne
  | cons c rest ih =>
    intro b h
    rcases Bool.eq_false_or_eq_true (isWS c) with hc | hc
    · cases b with
      | true =>
        rw [collapseWS_cons_ws_t rest hc] at h
        exact List.infix_cons (ih true h)
      | false =>
        rw [collapseWS_cons_ws_f rest hc] at h
        rcases List.infix_cons_iff.mp h with hpre | hinf
        · cases pat with
          | nil => exact absurd rfl hne
          | cons p ps =>
            have hb : p = ' ' := (List.cons_prefix_cons.mp hpre).1
            have hpw : isWS p = false := hnw p (List.mem_cons_self p ps)
            rw [hb] at hpw
            cases hpw
        · exact List.infix_cons (ih true hinf)
    · rw [collapseWS_cons_nws b rest hc] at h
      rcases List.infix_cons_iff.mp h with hpre | hinf
      · cases pat with
        | nil => exact absurd rfl hne
        | cons p ps =>
          obtain ⟨hb, htl⟩ := List.cons_prefix_cons.mp hpre
          subst hb
          exact (List.cons_prefix_cons.mpr
            ⟨rfl, collapse_prefix_refl
              (fun c hc => hnw c (List.mem_cons_of_mem p hc)) rest htl⟩).isInfix
      · exact List.infix_cons (ih false hinf)

/-- A nonempty whitespace-free pattern occurring in the normalized text
produced by `parse_out` already occurred in the raw text. -/
theorem parse_out_infix_refl {pat : List Char} (hnw : nonWS pat)
    (hne : pat ≠ []) {s : String} (h : pat <:+: (parse_out s).toList) :
    pat <:+: s.toList := by
  rw [parse_out, List.toList_asString] at h
  exact collapse_infix_refl hnw hne s.toList false
    (h.trans (stripWS_infix_self (collapseWS false s.toList)))

/-- Inversion: a successful option lookup is a dictionary hit. -/
theorem get_sub_command_option_ok {sc : SubCommand} {o : String} {oi : WpOption}
    (h : get_sub_command_option sc o = Except.ok oi) :
    dictGet sc.options o = some oi := by
  unfold get_sub_command_option at h
  cases hd : dictGet sc.options o with
  | none => rw [hd] at h; cases h
  | some x =>
    rw [hd] at h
    injection h with h
    rw [h]

/-- Inversion: a failed option lookup carries the fixed error message. -/
theorem get_sub_command_option_error {sc : SubCommand} {o : String} {e : String}
    (h : get_sub_command_option sc o = Except.error e) :
    e = "Option not available in SubCommand" := by
  unfold get_sub_command_option at h
  cases hd : dictGet sc.options o with
  | none =>
    rw [hd] at h
    injection h with h
    exact h.symm
  | some x => rw [hd] at h; cases h

/-- Every successfully formatted option list corresponds entry by entry
to the supplied mapping: each supplied pair resolves in the subcommand's
catalog and is rendered as `--name=value` or `--name` according to
whether the option accepts a value. -/
theorem get_formatted_options_forall2 (sc : SubCommand) :
    ∀ (opts : List (String × String)) (fo : List String),
      get_formatted_options sc opts = Except.ok fo →
      List.Forall₂ (fun (p : String × String) (f : String) =>
        ∃ oi, dictGet sc.options p.1 = some oi ∧
          f = if oi.accepts_values then "--" ++ oi.name ++ "=" ++ p.2
              else "--" ++ oi.name) opts fo := by
  intro opts
  induction opts with
  | nil =>
    intro fo h
    injection h with h
    rw [← h]
    exact List.Forall₂.nil
  | cons q rest ih =>
    intro fo h
    obtain ⟨o, v⟩ := q
    cases hopt : get_sub_command_option sc o with
    | error e => rw [show get_formatted_options sc ((o, v) :: rest) =
        Except.error e by rw [get_formatted_options, hopt]] at h; cases h
    | ok oi =>
      cases hrest : get_formatted_options sc rest with
      | error e => rw [show get_formatted_options sc ((o, v) :: rest) =
          Except.error e by rw [get_formatted_options, hopt, hrest]] at h; cases h
      | ok tail =>
        have hstep : get_formatted_options sc ((o, v) :: rest) =
            Except.ok ((if oi.accepts_values then "--" ++ oi.name ++ "=" ++ v
              else "--" ++ oi.name) :: tail) := by
          rw [get_formatted_options, hopt, hrest]
          rcases Bool.eq_false_or_eq_true oi.accepts_values with hav | hav <;>
            simp [hav]
        rw [hstep] at h
        injection h with h
        rw [← h]
        exact List.Forall₂.cons
          ⟨oi, get_sub_command_option_ok hopt, rfl⟩ (ih tail hrest)

/-- When some supplied option name is absent from the subcommand's
catalog, formatting aborts with the unknown-option error. -/
theorem get_formatted_options_fails (sc : SubCommand) :
    ∀ (opts : List (String × String)),
      (∃ p ∈ opts, dictGet sc.options p.1 = none) →
      get_formatted_options sc opts =
        Except.error "Option not available in SubCommand" := by
  intro opts
  induction opts with
  | nil => rintro ⟨p, hp, _⟩; cases hp
  | cons q rest ih =>
    rintro ⟨p, hp, hnone⟩
    obtain ⟨o, v⟩ := q
    rcases List.mem_cons.mp hp with hq | hp'
    · have hopt : get_sub_command_option sc o =
          Except.error "Option not available in SubCommand" := by
        unfold get_sub_command_option
        rw [hq] at hnone
        rw [hnone]
      rw [get_formatted_options, hopt]
    · cases hopt : get_sub_command_option sc o with
      | error e =>
        rw [get_formatted_options, hopt, get_sub_command_option_error hopt]
      | ok oi =>
        have hrest := ih ⟨p, hp', hnone⟩
        rw [get_formatted_options, hopt, hrest]

/-- The four sequential checks of the classifier amount to this override
priority: the WordPress sentence forces `false`, else `0/0` forces
`false`, else either of `Success` and `update_type` yields `true`. -/
theorem classify_changed_eq (output : String) :
    classify_changed output =
      if re_search "WordPress is at the latest version" output then false
      else if re_search "0/0" output then false
      else (re_search "Success" output || re_search "update_type" output) := by
  unfold classify_changed
  cases h1 : re_search "Success" output <;>
    cases h2 : re_search "update_type" output <;>
      cases h3 : re_search "0/0" output <;>
        cases h4 : re_search "WordPress is at the latest version" output <;>
          simp

/-- Unfolding of `main` on a validation failure: the module reports the
validation error and the subprocess result is irrelevant. -/
theorem wpcli_main_error {cmd sub : String} {args : List (String × String)}
    {wd msg : String} (run : RunResult)
    (hp : parse_invocation cmd sub args wd = Except.error msg) :
    wpcli_main cmd sub args wd run = ModuleOutcome.validationError msg := by
  unfold wpcli_main
  rw [hp]

/-- Unfolding of `main` on a successful validation and a zero exit
code. -/
theorem wpcli_main_ok {cmd sub : String} {args : List (String × String)}
    {wd : String} {r : Command × SubCommand × List String} (out err : String)
    (hp : parse_invocation cmd sub args wd = Except.ok r) :
    wpcli_main cmd sub args wd ⟨0, out, err⟩ =
      ModuleOutcome.ok (parse_out (out ++ err)) (out ++ err)
        (classify_changed (parse_out (out ++ err))) := by
  unfold wpcli_main
  rw [hp]
  simp

/-- Unfolding of `main` on a successful validation and a non-zero exit
code. -/
theorem wpcli_main_fail {cmd sub : String} {args : List (String × String)}
    {wd : String} {r : Command × SubCommand × List String} {rc : Int}
    (out err : String) (hp : parse_invocation cmd sub args wd = Except.ok r)
    (hrc : rc ≠ 0) :
    wpcli_main cmd sub args wd ⟨rc, out, err⟩ =
      ModuleOutcome.failed (parse_out err) err false := by
  unfold wpcli_main
  rw [hp]
  simp [hrc]

/-- Inversion: a missing command key yields the command error. -/
theorem get_command_none {cmd : String} (h : dictGet commands cmd = none) :
    get_command cmd commands = Except.error "Command not available" := by
  unfold get_command
  rw [h]

/-- Inversion: a present command key is returned. -/
theorem get_command_some {cmd : String} {c : Command}
    (h : dictGet commands cmd = some c) :
    get_command cmd commands = Except.ok c := by
  unfold get_command
  rw [h]

/-- Inversion: a missing subcommand key yields the subcommand error. -/
theorem get_sub_command_none {c : Command} {sub : String}
    (h : dictGet c.subCommands sub = none) :
    get_sub_command c sub = Except.error "SubCommand not available in Command" := by
  unfold get_sub_command
  rw [h]

/-- Inversion: a present subcommand key is returned. -/
theorem get_sub_command_some {c : Command} {sub : String} {sc : SubCommand}
    (h : dictGet c.subCommands sub = some sc) :
    get_sub_command c sub = Except.ok sc := by
  unfold get_sub_command
  rw [h]

/-- A command-resolution failure is a validation failure of the whole
invocation. -/
theorem parse_invocation_error_cmd {cmd e : String} (sub : String)
    (args : List (String × String)) (wd : String)
    (h : get_command cmd commands = Except.error e) :
    parse_invocation cmd sub args wd = Except.error e := by
  unfold parse_invocation
  simp only [h]

/-- A subcommand-resolution failure is a validation failure of the whole
invocation. -/
theorem parse_invocation_error_sub {cmd sub e : String} {c : Command}
    (args : List (String × String)) (wd : String)
    (hc : get_command cmd commands = Except.ok c)
    (hs : get_sub_command c sub = Except.error e) :
    parse_invocation cmd sub args wd = Except.error e := by
  unfold parse_invocation
  simp only [hc, hs]

/-- An option-resolution failure is a validation failure of the whole
invocation. -/
theorem parse_invocation_error_opts {cmd sub e : String} {c : Command}
    {sc : SubCommand} {args : List (String × String)} (wd : String)
    (hc : get_command cmd commands = Except.ok c)
    (hs : get_sub_command c sub = Except.ok sc)
    (ho : get_formatted_options sc args = Except.error e) :
    parse_invocation cmd sub args wd = Except.error e := by
  unfold parse_invocation
  simp only [hc, hs, ho]

/-- A pointwise related list has, for each left element, a related right
element. -/
theorem forall2_exists_left {α β : Type} {R : α → β → Prop} :
    ∀ {as : List α} {bs : List β}, List.Forall₂ R as bs →
      ∀ a ∈ as, ∃ b, b ∈ bs ∧ R a b := by
  intro as bs h
  induction h with
  | nil => intro a ha; cases ha
  | cons hR _ ih =>
    intro a ha
    rcases List.mem_cons.mp ha with ha' | ha'
    · subst ha'
      exact ⟨_, List.mem_cons_self _ _, hR⟩
    · obtain ⟨b, hb, hRb⟩ := ih a ha'
      exact ⟨b, List.mem_cons_of_mem _ hb, hRb⟩

/-- A pointwise related list has, for each right element, a related left
element. -/
theorem forall2_exists_right {α β : Type} {R : α → β → Prop} :
    ∀ {as : List α} {bs : List β}, List.Forall₂ R as bs →
      ∀ b ∈ bs, ∃ a, a ∈ as ∧ R a b := by
  intro as bs h
  induction h with
  | nil => intro b hb; cases hb
  | cons hR _ ih =>
    intro b hb
    rcases List.mem_cons.mp hb with hb' | hb'
    · subst hb'
      exact ⟨_, List.mem_cons_self _ _, hR⟩
    · obtain ⟨a, ha, hRa⟩ := ih b hb'
      exact ⟨a, List.mem_cons_of_mem _ ha, hRa⟩

/-- C1: on exit code 0 the four text checks run in a fixed sequence and a
later check overrides an earlier one: `Success` sets changed, then
`update_type` sets changed, then `0/0` clears it, then the WordPress
sentence clears it; consequently every output text containing both
`Success` and `0/0` is reported with `changed = false`. -/
theorem C1_override_order :
    (∀ output : String,
      classify_changed output =
        if re_search "WordPress is at the latest version" output then false
        else if re_search "0/0" output then false
        else (re_search "Success" output || re_search "update_type" output))
    ∧ (∀ (cmd sub : String) (args : List (String × String)) (wd : String)
        (r : Command × SubCommand × List String) (out err : String),
        parse_invocation cmd sub args wd = Except.ok r →
        "Success".toList <:+: (out ++ err).toList →
        "0/0".toList <:+: (out ++ err).toList →
        wpcli_main cmd sub args wd ⟨0, out, err⟩ =
          ModuleOutcome.ok (parse_out (out ++ err)) (out ++ err) false) := by
  refine ⟨classify_changed_eq, ?_⟩
  intro cmd sub args wd r out err hp _hS h00
  rw [wpcli_main_ok out err hp]
  have h00n : "0/0".toList <:+: (parse_out (out ++ err)).toList := by
    have : "0/0".toList <:+: ((out ++ err) : String).toList := h00
    exact parse_out_infix_mono (by unfold nonWS; decide) this
  have h00r : re_search "0/0" (parse_out (out ++ err)) = true :=
    (re_search_iff _ _).mpr h00n
  rw [classify_changed_eq, h00r]
  cases hWP : re_search "WordPress is at the latest version"
      (parse_out (out ++ err)) <;> simp

/-- Witness for C1 at a concrete invocation and output text. -/
theorem C1_override_order_witness :
    wpcli_main "core" "download" [] "/tmp"
        ⟨0, "Success: Updated 0/0 plugins.", ""⟩ =
      ModuleOutcome.ok (parse_out ("Success: Updated 0/0 plugins." ++ ""))
        ("Success: Updated 0/0 plugins." ++ "") false :=
  C1_override_order.2 "core" "download" [] "/tmp"
    (core, ⟨"download", []⟩, ["--path=/tmp"]) "Success: Updated 0/0 plugins." ""
    rfl (by decide) (by decide)

/-- C2: the second registration of the `update` subcommand of `core`
overwrites the first under the same map key, so the stored `update` has no
options; both declarations are present in the storage structure but
lookup returns the later (option-free) one, and every invocation of
`core update` with a non-empty argument mapping fails validation with the
unknown-option error. -/
theorem C2_core_update_overwritten :
    get_sub_command core "update" = Except.ok ⟨"update", []⟩
    ∧ (core.subCommands.filter (fun p => p.1 == "update")).map
        (fun p => p.2.options.length) = [0, 2]
    ∧ ∀ (o v : String) (rest : List (String × String)) (wd : String)
        (run : RunResult),
        wpcli_main "core" "update" ((o, v) :: rest) wd run =
          ModuleOutcome.validationError "Option not available in SubCommand" := by
  refine ⟨rfl, rfl, ?_⟩
  intro o v rest wd run
  have hopt : get_formatted_options ⟨"update", []⟩ ((o, v) :: rest) =
      Except.error "Option not available in SubCommand" :=
    get_formatted_options_fails _ _ ⟨(o, v), List.mem_cons_self _ _, rfl⟩
  exact wpcli_main_error run
    (parse_invocation_error_opts wd rfl rfl hopt)

/-- C3: every successfully formatted flag list renders each supplied
option as `--name=value` when its catalog entry accepts a value and as
`--name` (ignoring the supplied value) otherwise, entry by entry in
order; and the invocation pipeline unconditionally appends
`--path=<working-directory>` as the final flag, without validating it
against the catalog. -/
theorem C3_flag_formatting :
    (∀ (sc : SubCommand) (opts : List (String × String)) (fo : List String),
      get_formatted_options sc opts = Except.ok fo →
      List.Forall₂ (fun (p : String × String) (f : String) =>
        ∃ oi, dictGet sc.options p.1 = some oi ∧
          f = if oi.accepts_values then "--" ++ oi.name ++ "=" ++ p.2
              else "--" ++ oi.name) opts fo)
    ∧ (∀ (cmd sub : String) (args : List (String × String)) (wd : String)
        (c : Command) (sc : SubCommand) (fo : List String),
        parse_invocation cmd sub args wd = Except.ok (c, sc, fo) →
        ∃ fo0, get_formatted_options sc args = Except.ok fo0 ∧
          fo = fo0 ++ ["--path=" ++ wd]) := by
  refine ⟨get_formatted_options_forall2, ?_⟩
  intro cmd sub args wd c sc fo hp
  unfold parse_invocation at hp
  cases hc : get_command cmd commands with
  | error e => simp only [hc] at hp; cases hp
  | ok pc =>
    simp only [hc] at hp
    cases hs : get_sub_command pc sub with
    | error e => simp only [hs] at hp; cases hp
    | ok psc =>
      simp only [hs] at hp
      cases ho : get_formatted_options psc args with
      | error e => simp only [ho] at hp; cases hp
      | ok po =>
        simp only [ho] at hp
        injection hp with hp
        injection hp with hp1 hp2
        injection hp2 with hp2a hp2b
        subst hp2a
        subst hp2b
        exact ⟨po, ho, rfl⟩

/-- Witness for C3 at the `theme update` subcommand. -/
theorem C3_flag_formatting_witness :
    List.Forall₂ (fun (p : String × String) (f : String) =>
      ∃ oi, dictGet (SubCommand.mk "update" [("all", ⟨"all", false⟩)]).options
          p.1 = some oi ∧
        f = if oi.accepts_values then "--" ++ oi.name ++ "=" ++ p.2
            else "--" ++ oi.name) [("all", "1")] ["--all"]
    ∧ ∃ fo0, get_formatted_options (SubCommand.mk "update"
          [("all", ⟨"all", false⟩)]) [("all", "1")] = Except.ok fo0 ∧
        (["--all", "--path=/var/www"] : List String) =
          fo0 ++ ["--path=" ++ "/var/www"] :=
  ⟨C3_flag_formatting.1 (SubCommand.mk "update" [("all", ⟨"all", false⟩)])
      [("all", "1")] ["--all"] rfl,
   C3_flag_formatting.2 "theme" "update" [("all", "1")] "/var/www" theme
      (SubCommand.mk "update" [("all", ⟨"all", false⟩)])
      ["--all", "--path=/var/www"] rfl⟩

/-- C4: validation resolves the command, then the subcommand, then each
option key, and the first failure aborts the whole invocation with the
distinct error message for its level, before any subprocess result is
consulted (the reported outcome is the same for every subprocess result);
in particular any argument mapping containing a name absent from the
resolved subcommand's catalog fails with the unknown-option error. -/
theorem C4_validation_aborts :
    (∀ cmd : String, dictGet commands cmd = none →
      ∀ (sub : String) (args : List (String × String)) (wd : String)
        (run : RunResult),
        wpcli_main cmd sub args wd run =
          ModuleOutcome.validationError "Command not available")
    ∧ (∀ (cmd : String) (c : Command), dictGet commands cmd = some c →
        ∀ sub : String, dictGet c.subCommands sub = none →
        ∀ (args : List (String × String)) (wd : String) (run : RunResult),
          wpcli_main cmd sub args wd run =
            ModuleOutcome.validationError "SubCommand not available in Command")
    ∧ (∀ (cmd : String) (c : Command), dictGet commands cmd = some c →
        ∀ (sub : String) (sc : SubCommand), dictGet c.subCommands sub = some sc →
        ∀ args : List (String × String),
          (∃ p ∈ args, dictGet sc.options p.1 = none) →
        ∀ (wd : String) (run : RunResult),
          wpcli_main cmd sub args wd run =
            ModuleOutcome.validationError "Option not available in SubCommand") := by
  refine ⟨?_, ?_, ?_⟩
  · intro cmd hcmd sub args wd run
    exact wpcli_main_error run
      (parse_invocation_error_cmd sub args wd (get_command_none hcmd))
  · intro cmd c hcmd sub hsub args wd run
    exact wpcli_main_error run
      (parse_invocation_error_sub args wd (get_command_some hcmd)
        (get_sub_command_none hsub))
  · intro cmd c hcmd sub sc hsub args hargs wd run
    exact wpcli_main_error run
      (parse_invocation_error_opts wd (get_command_some hcmd)
        (get_sub_command_some hsub) (get_formatted_options_fails sc args hargs))

/-- Witness for C4 at one concrete failing input per validation level. -/
theorem C4_validation_aborts_witness :
    wpcli_main "user" "update" [] "/w" ⟨0, "", ""⟩ =
      ModuleOutcome.validationError "Command not available"
    ∧ wpcli_main "core" "instal" [] "/w" ⟨0, "", ""⟩ =
      ModuleOutcome.validationError "SubCommand not available in Command"
    ∧ wpcli_main "core" "download" [("bogus", "1")] "/w" ⟨0, "", ""⟩ =
      ModuleOutcome.validationError "Option not available in SubCommand" :=
  ⟨C4_validation_aborts.1 "user" (by decide) "update" [] "/w" ⟨0, "", ""⟩,
   C4_validation_aborts.2.1 "core" core (by decide) "instal" (by decide)
     [] "/w" ⟨0, "", ""⟩,
   C4_validation_aborts.2.2 "core" core (by decide) "download"
     ⟨"download", []⟩ (by decide) [("bogus", "1")]
     ⟨("bogus", "1"), List.mem_cons_self _ _, rfl⟩ "/w" ⟨0, "", ""⟩⟩

/-- Counterexample to C5 as stated: on a non-zero exit code the reported
`msg` field is the whitespace-normalized stderr, not the raw stderr, so
with stderr `"error:  failed\n"` the two differ. -/
theorem C5_counterexample :
    wpcli_main "core" "download" [] "/w" ⟨1, "", "error:  failed\n"⟩ =
      ModuleOutcome.failed "error: failed" "error:  failed\n" false
    ∧ "error: failed" ≠ "error:  failed\n" := by
  refine ⟨by decide, by decide⟩

/-- C5 (amended): for every invocation whose subprocess exits with a
non-zero exit code, the module reports failure with `msg` set to the
whitespace-normalized stderr (`parse_out err`), `stdout` set to the raw
stderr, and `changed = false` — none of the changed-detection checks are
applied. -/
theorem C5_failure_reporting :
    ∀ (cmd sub : String) (args : List (String × String)) (wd : String)
      (r : Command × SubCommand × List String) (rc : Int) (out err : String),
      parse_invocation cmd sub args wd = Except.ok r →
      rc ≠ 0 →
      wpcli_main cmd sub args wd ⟨rc, out, err⟩ =
        ModuleOutcome.failed (parse_out err) err false :=
  fun _ _ _ _ _ _ out err hp hrc => wpcli_main_fail out err hp hrc

/-- Witness for the amended C5 at a concrete failing run. -/
theorem C5_failure_reporting_witness :
    wpcli_main "plugin" "update" [("all", "")] "/srv" ⟨2, "ignored", "boom"⟩ =
      ModuleOutcome.failed (parse_out "boom") "boom" false :=
  C5_failure_reporting "plugin" "update" [("all", "")] "/srv"
    (plugin, ⟨"update", [("all", ⟨"all", false⟩)]⟩, ["--all", "--path=/srv"])
    2 "ignored" "boom" rfl (by decide)

/-- C6: on a successful run the reported `msg` field is the normalized
(whitespace runs collapsed, ends trimmed) concatenation of stdout followed
by stderr, and the reported `stdout` field is the raw, un-normalized
concatenation of stdout followed by stderr, in that order. -/
theorem C6_success_output_fields :
    ∀ (cmd sub : String) (args : List (String × String)) (wd : String)
      (r : Command × SubCommand × List String) (out err : String),
      parse_invocation cmd sub args wd = Except.ok r →
      wpcli_main cmd sub args wd ⟨0, out, err⟩ =
        ModuleOutcome.ok (parse_out (out ++ err)) (out ++ err)
          (classify_changed (parse_out (out ++ err))) :=
  fun _ _ _ _ _ out err hp => wpcli_main_ok out err hp

/-- Witness for C6 at a concrete successful run with distinct stdout and
stderr. -/
theorem C6_success_output_fields_witness :
    wpcli_main "core" "update-db" [] "/srv" ⟨0, "done \t here", " warn\n"⟩ =
      ModuleOutcome.ok (parse_out ("done \t here" ++ " warn\n"))
        ("done \t here" ++ " warn\n")
        (classify_changed (parse_out ("done \t here" ++ " warn\n"))) :=
  C6_success_output_fields "core" "update-db" [] "/srv"
    (core, ⟨"update-db", []⟩, ["--path=/srv"]) "done \t here" " warn\n" rfl

/-- C7: every (command, subcommand) pair of the static catalog resolves,
yielding the expected emitted name; in particular the lookup key
`checkUpdate` under `core` resolves to the emitted name `check-update`,
while the emitted name itself is not a valid lookup key. -/
theorem C7_catalog_resolution :
    Except.map SubCommand.name (get_sub_command core "install") =
      Except.ok "install"
    ∧ Except.map SubCommand.name (get_sub_command core "update") =
      Except.ok "update"
    ∧ Except.map SubCommand.name (get_sub_command core "download") =
      Except.ok "download"
    ∧ Except.map SubCommand.name (get_sub_command core "config") =
      Except.ok "config"
    ∧ Except.map SubCommand.name (get_sub_command core "update-db") =
      Except.ok "update-db"
    ∧ Except.map SubCommand.name (get_sub_command core "checkUpdate") =
      Except.ok "check-update"
    ∧ Except.map SubCommand.name (get_sub_command theme "update") =
      Except.ok "update"
    ∧ Except.map SubCommand.name (get_sub_command plugin "update") =
      Except.ok "update"
    ∧ get_command "core" commands = Except.ok core
    ∧ get_command "theme" commands = Except.ok theme
    ∧ get_command "plugin" commands = Except.ok plugin
    ∧ get_sub_command core "check-update" =
      Except.error "SubCommand not available in Command" :=
  ⟨rfl, rfl, rfl, rfl, rfl, rfl, rfl, rfl, rfl, rfl, rfl, rfl⟩

/-- C8: in every successfully formatted flag list, each supplied option
name resolved to a catalog entry of the subcommand, and every emitted
flag stems from a supplied pair whose name resolved in the catalog — no
flag appears that was not present in the validated input. -/
theorem C8_flag_provenance :
    ∀ (sc : SubCommand) (opts : List (String × String)) (fo : List String),
      get_formatted_options sc opts = Except.ok fo →
      (∀ p ∈ opts, ∃ oi, dictGet sc.options p.1 = some oi)
      ∧ (∀ f ∈ fo, ∃ p, p ∈ opts ∧ ∃ oi, dictGet sc.options p.1 = some oi ∧
          f = if oi.accepts_values then "--" ++ oi.name ++ "=" ++ p.2
              else "--" ++ oi.name) := by
  intro sc opts fo h
  have h2 := get_formatted_options_forall2 sc opts fo h
  constructor
  · intro p hp
    obtain ⟨f, _, oi, hoi, _⟩ := forall2_exists_left h2 p hp
    exact ⟨oi, hoi⟩
  · intro f hf
    obtain ⟨p, hp, hR⟩ := forall2_exists_right h2 f hf
    exact ⟨p, hp, hR⟩

/-- Witness for C8 at the `core install` subcommand with one
value-bearing and one flag-only option. -/
theorem C8_flag_provenance_witness :
    (∀ p ∈ ([("url", "http://x"), ("skip-email", "z")] :
        List (String × String)),
      ∃ oi, dictGet (SubCommand.mk "install"
        [("skip-email", ⟨"skip-email", false⟩), ("admin_email", ⟨"admin_email", true⟩),
         ("admin_password", ⟨"admin_password", true⟩), ("admin_user", ⟨"admin_user", true⟩),
         ("title", ⟨"title", true⟩), ("url", ⟨"url", true⟩)]).options p.1 = some oi)
    ∧ (∀ f ∈ (["--url=http://x", "--skip-email"] : List String),
        ∃ p, p ∈ ([("url", "http://x"), ("skip-email", "z")] :
            List (String × String)) ∧
          ∃ oi, dictGet (SubCommand.mk "install"
            [("skip-email", ⟨"skip-email", false⟩), ("admin_email", ⟨"admin_email", true⟩),
             ("admin_password", ⟨"admin_password", true⟩), ("admin_user", ⟨"admin_user", true⟩),
             ("title", ⟨"title", true⟩), ("url", ⟨"url", true⟩)]).options p.1 = some oi ∧
            f = if oi.accepts_values then "--" ++ oi.name ++ "=" ++ p.2
                else "--" ++ oi.name) :=
  C8_flag_provenance (SubCommand.mk "install"
    [("skip-email", ⟨"skip-email", false⟩), ("admin_email", ⟨"admin_email", true⟩),
     ("admin_password", ⟨"admin_password", true⟩), ("admin_user", ⟨"admin_user", true⟩),
     ("title", ⟨"title", true⟩), ("url", ⟨"url", true⟩)])
    [("url", "http://x"), ("skip-email", "z")]
    ["--url=http://x", "--skip-email"] rfl

/-- C9: on exit code 0, when the combined stdout+stderr text contains
none of the four patterns `Success`, `update_type`, `0/0` and
`WordPress is at the latest version`, the reported result has
`changed = false` — false is the default when nothing matches. -/
theorem C9_no_match_default_false :
    ∀ (cmd sub : String) (args : List (String × String)) (wd : String)
      (r : Command × SubCommand × List String) (out err : String),
      parse_invocation cmd sub args wd = Except.ok r →
      ¬ ("Success".toList <:+: (out ++ err).toList) →
      ¬ ("update_type".toList <:+: (out ++ err).toList) →
      ¬ ("0/0".toList <:+: (out ++ err).toList) →
      ¬ ("WordPress is at the latest version".toList <:+: (out ++ err).toList) →
      wpcli_main cmd sub args wd ⟨0, out, err⟩ =
        ModuleOutcome.ok (parse_out (out ++ err)) (out ++ err) false := by
  intro cmd sub args wd r out err hp hS hU _h00 _hWP
  rw [wpcli_main_ok out err hp, classify_changed_eq]
  have hSr : re_search "Success" (parse_out (out ++ err)) = false := by
    cases h : re_search "Success" (parse_out (out ++ err)) with
    | false => rfl
    | true =>
      exact absurd (parse_out_infix_refl (by unfold nonWS; decide) (by decide)
        ((re_search_iff _ _).mp h)) hS
  have hUr : re_search "update_type" (parse_out (out ++ err)) = false := by
    cases h : re_search "update_type" (parse_out (out ++ err)) with
    | false => rfl
    | true =>
      exact absurd (parse_out_infix_refl (by unfold nonWS; decide) (by decide)
        ((re_search_iff _ _).mp h)) hU
  rw [hSr, hUr]
  cases hW : re_search "WordPress is at the latest version"
      (parse_out (out ++ err)) <;>
    cases h0 : re_search "0/0" (parse_out (out ++ err)) <;> simp

/-- Witness for C9 at a concrete run whose output matches no pattern. -/
theorem C9_no_match_default_false_witness :
    wpcli_main "core" "config" [("dbname", "wp")] "/srv"
        ⟨0, "nothing to do", ""⟩ =
      ModuleOutcome.ok (parse_out ("nothing to do" ++ ""))
        ("nothing to do" ++ "") false :=
  C9_no_match_default_false "core" "config" [("dbname", "wp")] "/srv"
    (core, ⟨"config", [("dbpass", ⟨"dbpass", true⟩), ("dbuser", ⟨"dbuser", true⟩),
      ("dbname", ⟨"dbname", true⟩)]⟩, ["--dbname=wp", "--path=/srv"])
    "nothing to do" "" rfl (by decide) (by decide) (by decide) (by decide)
